import Mathlib

/-
Shallow embedding of the aazuspan/geeTools Earth Engine helper library.

Pixels are indexed by natural numbers.  A per-pixel value of an Earth Engine
raster is modelled either as a rational number (for the exact, arithmetic-only
code paths) or as `Option ℝ` where `none` stands for an invalid / masked
(NaN-class) pixel, following the engine semantics the repository assumes:
division by zero and square roots of negative radicands yield invalid pixels
that propagate band-wise, and `where` / `clamp` leave masked pixels masked.
-/

namespace GeeTools

abbrev Pix := Nat

/-! ## TPI.js -/

/-- Earth Engine `int()` cast: truncation toward zero. -/
def eeToInt (x : ℚ) : ℤ := if 0 ≤ x then ⌊x⌋ else ⌈x⌉

/-- Per-pixel `tpi` from `TPI.js`:
`dem.subtract(dem.focal_mean(radius, window_shape, units)).add(0.5).int()`.
The neighborhood mean is the engine's focal-mean primitive, kept abstract as a
raster operator argument. -/
def tpi (dem : Pix → ℚ) (focalMean : (Pix → ℚ) → Pix → ℚ) (p : Pix) : ℤ :=
  eeToInt (dem p - focalMean dem p + 0.5)

/-- A constant raster. -/
def constImg (x : ℚ) : Pix → ℚ := fun _ => x

/-- A focal mean operator that is identically zero, used for concrete inputs. -/
def zeroFocal : (Pix → ℚ) → Pix → ℚ := fun _ _ => 0

/-- Earth Engine `img.where(cond, v)` on an integer-valued unmasked raster,
per pixel: the output is `v` where the condition holds, the input elsewhere. -/
def eeWhereInt (img : ℤ) (cond : Prop) [Decidable cond] (v : ℤ) : ℤ :=
  if cond then v else img

/-- JS default `flat_degrees = flat_degrees || 5` from `slopePosition`
(truthy-or: a missing or zero argument falls back to 5). -/
def resolveFlatDegrees (flat : Option ℚ) : ℚ :=
  match flat with
  | some f => if f ≠ 0 then f else 5
  | none => 5

/-- Per-pixel `where`-chain of `slopePosition` (`TPI.js`), applied to the
TPI value `v` and slope value `s` of one pixel.  `sd` is the result of the
standard-deviation region reduction (an engine primitive, taken as an input),
`flat` the resolved `flat_degrees` threshold.  The chain starts from the
constant image 0 and each later `where` overrides the earlier ones. -/
def slopePositionClass (sd flat v s : ℚ) : ℤ :=
  eeWhereInt (eeWhereInt (eeWhereInt (eeWhereInt (eeWhereInt (eeWhereInt 0
    (v > sd) 1)
    (v > sd * 0.5 ∧ v ≤ sd) 2)
    (v > sd * (-0.5) ∧ (v < sd * 0.5 ∧ s > flat)) 3)
    (v ≥ sd * (-0.5) ∧ (v ≤ sd * 0.5 ∧ s ≤ flat)) 4)
    (v ≥ sd * (-1) ∧ v < sd * (-0.5)) 5)
    (v < sd * (-1)) 6

/-- `slopePosition` from `TPI.js`: resolve the `flat_degrees` default, then
reclassify each pixel.  `sd` stands for the `reduceRegion` standard-deviation
scalar computed by the engine. -/
def slopePosition (v s : ℚ) (flat : Option ℚ) (sd : ℚ) : ℤ :=
  slopePositionClass sd (resolveFlatDegrees flat) v s

/-! ## utils.js / cloudMasking.js / fire.js optional-parameter conventions -/

/-- A JavaScript value as the optional-parameter code paths use them. -/
inductive JSVal where
  | num (q : ℚ)
  | boolean (b : Bool)
  | null
deriving DecidableEq

/-- JS truthiness of a value: 0, false and null are falsy. -/
def truthy : JSVal → Bool
  | .num q => q != 0
  | .boolean b => b
  | .null => false

/-- A JS object: a map from keys to present values (a key mapped to `none` is
absent from the object; a present key may still carry the value `null`). -/
abbrev JSObj := String → Option JSVal

/-- utils.js `updateParameters(def, given)`: when `given` is supplied, every
key present in `given` overwrites the default, whatever its value (the
`for (var prop in given) def[prop] = given[prop]` loop); a missing `given`
leaves the defaults unchanged. -/
def updateParameters (d : JSObj) (given : Option JSObj) : JSObj :=
  match given with
  | none => d
  | some g => fun k =>
    match g k with
    | some v => some v
    | none => d k

/-- cloudMasking.js `probabilityCloudMask` default resolution for its
probabilityThreshold argument: the JS conditional
`probabilityThreshold ? probabilityThreshold : 30`. -/
def probabilityCloudMaskThreshold (arg : Option JSVal) : JSVal :=
  match arg with
  | some v => if truthy v then v else .num 30
  | none => .num 30

/-- fire.js `vectorizeBoundary` default resolution for its maxPixels argument:
the JS conditional `maxPixels ? maxPixels : 1e13`. -/
def vectorizeBoundaryMaxPixels (arg : Option JSVal) : JSVal :=
  match arg with
  | some v => if truthy v then v else .num 10000000000000
  | none => .num 10000000000000

/-- An object supplying the explicit falsy override smooth = false. -/
def smoothFalseObj : JSObj :=
  fun k => if k = "smooth" then some (.boolean false) else none

/-- The empty defaults object, used for concrete witnesses. -/
def emptyObj : JSObj := fun _ => none

/-! ## Dark object subtraction (radiometric correction module) -/

abbrev Band := String

/-- The engine's band-wise mean region reduction: the mean of one band's
values over the pixels of the dark-object geometry. -/
def regionMean (img : Band → Pix → ℚ) (obj : List Pix) (b : Band) : ℚ :=
  ((obj.map (img b)).sum) / obj.length

/-- darkObjectSubtraction: subtract from every band of the input image its
mean over the dark-object region, broadcast as a constant per-band offset. -/
def darkObjectSubtraction (img : Band → Pix → ℚ) (obj : List Pix) :
    Band → Pix → ℚ :=
  fun b p => img b p - regionMean img obj b

/-- A two-pixel image whose values over the pixels 0 and 1 average to zero. -/
def zeroMeanImg : Band → Pix → ℚ := fun _ p => if p = 0 then 1 else -1

/-! ## fire.js periodFireBoundary (GOES16 / GOES17 fusion) -/

/-- One GOES observation as seen at the pixel under study: acquisition time,
whether it intersects the search region, and the DQF quality value at that
pixel (none when the observation is masked there). -/
structure GoesObs where
  time : ℚ
  inRegion : Bool
  dqf : Option ℚ

/-- The composition `.filterDate(date, date.advance(timeDelta/1000, "seconds"))`
with `.filterBounds(region)`: the observations of the half-open interval
[t, t+delta) that intersect the region. -/
def filterPeriod (t delta : ℚ) (obs : List GoesObs) : List GoesObs :=
  obs.filter fun o =>
    decide (t ≤ o.time) && decide (o.time < t + delta) && o.inRegion

/-- The pixel's DQF values across the filtered observations (the unmasked
entries of the selected DQF band). -/
def periodDqfVals (t delta : ℚ) (obs : List GoesObs) : List ℚ :=
  (filterPeriod t delta obs).filterMap GoesObs.dqf

/-- One source's fire mask in the exported periodFireBoundary: reduce the DQF
band over the interval with the median reducer (masked when the interval has
no unmasked observations), then flag the pixels whose reduced quality equals
the best-quality code 0.  The engine's median reducer is abstracted as the
`med` argument. -/
def sourceFireMask (med : List ℚ → ℚ) (t delta : ℚ) (obs : List GoesObs) :
    Option ℚ :=
  let vals := periodDqfVals t delta obs
  if vals.isEmpty then none else some (if med vals = 0 then 1 else 0)

/-- Reducing the two-image boundary collection with ee.Reducer.max: per pixel,
masked inputs are skipped, and the result is masked only when both are. -/
def reduceMax2 (a b : Option ℚ) : Option ℚ :=
  match a, b with
  | none, y => y
  | some x, none => some x
  | some x, some y => some (max x y)

/-- Reducing a two-image collection with ee.Reducer.min, used by the earlier,
overwritten assignment of exports.periodFireBoundary. -/
def reduceMin2 (a b : Option ℚ) : Option ℚ :=
  match a, b with
  | none, y => y
  | some x, none => some x
  | some x, some y => some (min x y)

/-- The method `selfMask()`: keep only the pixels whose value is nonzero. -/
def eeSelfMask (a : Option ℚ) : Option ℚ :=
  match a with
  | some x => if x ≠ 0 then some x else none
  | none => none

/-- One source's fire mask in the first (later overwritten) assignment of
exports.periodFireBoundary in fire.js: reduce DQF with ee.Reducer.min and
flag where the minimum equals 0. -/
def sourceFireMaskMin (t delta : ℚ) (obs : List GoesObs) : Option ℚ :=
  match (periodDqfVals t delta obs).min? with
  | none => none
  | some m => some (if m = 0 then 1 else 0)

/-- The first assignment to exports.periodFireBoundary in fire.js (the min
reducer per source combined with ee.Reducer.min across sources, requiring
agreement).  In JS it is overwritten by the later assignment below and is
never the exported function. -/
def periodFireBoundaryFirstAssigned (t delta : ℚ)
    (obs16 obs17 : List GoesObs) : Option ℚ :=
  eeSelfMask (reduceMin2 (sourceFireMaskMin t delta obs16)
    (sourceFireMaskMin t delta obs17))

/-- The exported periodFireBoundary: the later of the two JS assignments to
exports.periodFireBoundary wins, so the exported function is the median/max
version — per source, the interval's DQF band is reduced with the median
reducer and compared to 0, the two sources are combined with ee.Reducer.max,
and the result is selfMasked.  The smooth = false path is modelled (smoothing
is a neighborhood mode filter applied before the selfMask, outside the
per-pixel claim). -/
def periodFireBoundary (med : List ℚ → ℚ) (t delta : ℚ)
    (obs16 obs17 : List GoesObs) : Option ℚ :=
  eeSelfMask (reduceMax2 (sourceFireMask med t delta obs16)
    (sourceFireMask med t delta obs17))

/-! ## fire.js accumulateMask / cumulative periodicFireBoundaries -/

/-- A fire mask raster at pixel level: none models a masked pixel. -/
abbrev Mask := Pix → Option ℚ

/-- The method `unmask()`: replace masked pixels by 0. -/
def eeUnmask (m : Mask) : Pix → ℚ := fun p => (m p).getD 0

/-- The all-masked raster (an interval with no detections at all). -/
def emptyMask : Mask := fun _ => none

/-- The placeholder seed ee.Image(0): a constant unmasked zero raster. -/
def zeroMask : Mask := fun _ => some 0

/-- One step of fire.js accumulateMask at pixel level: unmask the previous
accumulated mask and the next interval mask, add them, apply gt(0) and then
selfMask — pixels with a positive sum become 1, all others are masked. -/
def stepMask (prev next : Mask) : Mask := fun p =>
  if eeUnmask next p + eeUnmask prev p > 0 then some 1 else none

/-- fire.js accumulateMask(next, list): read the last accumulated mask with
ee.List.get(-1) (the list is always nonempty in use; the engine errors on an
empty list, mapped here to the all-masked raster), take the thresholded union
with the next interval mask, and append the result. -/
def accumulateMask (next : Mask) (list : List Mask) : List Mask :=
  list ++ [stepMask (list.getLastD emptyMask) next]

/-- The cumulative branch of periodicFireBoundaries: iterate accumulateMask
over the ordered interval masks starting from the placeholder list
[ee.Image(0)], then slice off the placeholder. -/
def cumulativeBoundaries (masks : List Mask) : List Mask :=
  (masks.foldl (fun acc m => accumulateMask m acc) [zeroMask]).drop 1

/-- Modelled from the spec: the union of the previous accumulated mask and
the current interval's mask is the "sum of both unmasked, then threshold
greater-than-zero" OR, re-masked to positive-only. -/
def orMask (prev cur : Mask) : Mask := fun p =>
  if eeUnmask cur p + eeUnmask prev p > 0 then some 1 else none

/-- Modelled from the spec: the cumulative output is the running OR of the
interval masks, seeded with the all-zero raster which is then discarded, so
the k-th output is the logical OR of the first k interval masks. -/
def specCumulative (masks : List Mask) : List Mask :=
  (masks.scanl orMask zeroMask).drop 1

/-- The accumulated masks produced after a seed list ending in `a`. -/
def scanAux (a : Mask) : List Mask → List Mask
  | [] => []
  | m :: ms => stepMask a m :: scanAux (stepMask a m) ms

/-- A one-pixel detection mask used for the concrete C3 witness. -/
def oneAtZero : Mask := fun p => if p = 0 then some 1 else none

/-! ## Real-valued pixel arithmetic with invalid (NaN-class) propagation

The engine semantics this library is written against: invalid / masked pixel
values propagate through band arithmetic, division by zero and square roots of
negative radicands produce invalid values, and conditional updates (`where`)
leave invalid pixels untouched. -/

/-- A real-valued Earth Engine pixel; none is an invalid / masked value. -/
abbrev EEVal := Option ℝ

noncomputable def eeAdd : EEVal → EEVal → EEVal
  | some a, some b => some (a + b)
  | _, _ => none

noncomputable def eeSub : EEVal → EEVal → EEVal
  | some a, some b => some (a - b)
  | _, _ => none

noncomputable def eeMul : EEVal → EEVal → EEVal
  | some a, some b => some (a * b)
  | _, _ => none

open Classical in
/-- Division: invalid when either operand is invalid or the denominator is 0. -/
noncomputable def eeDiv : EEVal → EEVal → EEVal
  | some a, some b => if b = 0 then none else some (a / b)
  | _, _ => none

open Classical in
/-- Square root: invalid on a negative radicand. -/
noncomputable def eeSqrt : EEVal → EEVal
  | some a => if a < 0 then none else some (Real.sqrt a)
  | none => none

noncomputable def eeAbs : EEVal → EEVal
  | some a => some |a|
  | none => none

noncomputable def eeExp : EEVal → EEVal
  | some a => some (Real.exp a)
  | none => none

open Classical in
/-- The condition image `a.gt(c)`: masked where a is. -/
noncomputable def eeGtBool (a : EEVal) (c : ℝ) : Option Bool :=
  a.map fun v => decide (c < v)

open Classical in
/-- The condition image `a.lt(c)`: masked where a is. -/
noncomputable def eeLtBool (a : EEVal) (c : ℝ) : Option Bool :=
  a.map fun v => decide (v < c)

/-- `img.where(cond, v)`: replace the pixel by v where the condition image is
unmasked and true; keep it (masked pixels included) everywhere else. -/
def eeWhereR (img : EEVal) (cond : Option Bool) (v : ℝ) : EEVal :=
  match img, cond with
  | some _, some true => some v
  | some a, _ => some a
  | none, _ => none

/-- `ee.Image.normalizedDifference([b1, b2])`: (b1 - b2)/(b1 + b2), invalid
where the denominator is zero. -/
noncomputable def normalizedDiff (a b : EEVal) : EEVal :=
  eeDiv (eeSub a b) (eeAdd a b)

/-! ## fire.js calculateBurnSeverity -/

/-- The burn-severity bands of one pixel. -/
structure SeverityPixel where
  preNBR : EEVal
  postNBR : EEVal
  dNBR : EEVal
  RdNBR : EEVal
  percentMortality : EEVal
  refugia : EEVal

/-- The basal-area-mortality regression chain of calculateBurnSeverity:
`RdNBR.multiply(1135360).add(-119487011).sqrt().multiply(0.00003938).add(-0.22845617)`. -/
noncomputable def basalMortality (rd : EEVal) : EEVal :=
  eeAdd (eeMul (eeSqrt (eeAdd (eeMul rd (some 1135360)) (some (-119487011))))
    (some 0.00003938)) (some (-0.22845617))

/-- fire.js calculateBurnSeverity at one pixel, from the NIR and SWIR values
of the pre- and post-fire images: NBRs scaled by 1000, their delta, the
relativized delta dNBR / sqrt(|preNBR/1000|), the mortality regression, and
the refugia flag `ee.Image(1).where(basalMortality.gt(0.1), 0)`. -/
noncomputable def calculateBurnSeverity
    (preNIR preSWIR postNIR postSWIR : EEVal) : SeverityPixel :=
  let preNBR := eeMul (normalizedDiff preNIR preSWIR) (some 1000)
  let postNBR := eeMul (normalizedDiff postNIR postSWIR) (some 1000)
  let dNBR := eeSub preNBR postNBR
  let rd := eeDiv dNBR (eeSqrt (eeAbs (eeDiv preNBR (some 1000))))
  let mortality := basalMortality rd
  let refugia := eeWhereR (some 1) (eeGtBool mortality 0.1) 0
  ⟨preNBR, postNBR, dNBR, rd, mortality, refugia⟩

/-! ## climate.js relativeHumidity -/

/-- The unclamped Bolton ratio `var RH = e.divide(es)` of climate.js, for
finite scalar inputs q (specific humidity), p (pressure, Pa), t (temperature,
C): e = q*p / (0.378*q + 0.622) and es = 6.112 * exp(17.67*t / (t + 243.5)). -/
noncomputable def relativeHumidityRaw (q p t : ℝ) : EEVal :=
  eeDiv
    (eeDiv (eeMul (some q) (some p))
      (eeAdd (eeMul (some q) (some 0.378)) (some 0.622)))
    (eeMul (eeExp (eeDiv (eeMul (some t) (some 17.67))
      (eeAdd (some t) (some 243.5)))) (some 6.112))

/-- climate.js relativeHumidity: the Bolton ratio followed by the clamp chain
`RH.where(RH.lt(0), 0).where(RH.gt(100), 100)` (both conditions computed on
the unclamped ratio, as in the source). -/
noncomputable def relativeHumidity (q p t : ℝ) : EEVal :=
  eeWhereR
    (eeWhereR (relativeHumidityRaw q p t) (eeLtBool (relativeHumidityRaw q p t) 0) 0)
    (eeGtBool (relativeHumidityRaw q p t) 100) 100

/-! ## HLI.js hli -/

/-- The engine primitives HLI.js consumes: the terrain slope and aspect
operators, the per-pixel latitude image, and the catalog raster
ee.Image("CGIAR/SRTM90_V4") bound to the module-level srtm variable. -/
structure Engine where
  slope : (Pix → ℝ) → Pix → ℝ
  aspect : (Pix → ℝ) → Pix → ℝ
  pixelLatitude : Pix → ℝ
  srtmData : Pix → ℝ

/-- A forced hemisphere argument ("north" or "south"). -/
inductive Hemisphere where
  | north
  | south

/-- HLI.js deg2rad: divide by the coefficient 180 / pi. -/
noncomputable def deg2rad (d : ℝ) : ℝ := d / (180 / Real.pi)

/-- The module-level image `var srtm = ee.Image("CGIAR/SRTM90_V4")`. -/
def srtm (E : Engine) : Pix → ℝ := E.srtmData

/-- HLI.js hli(x, forceLatitude, forceHemisphere) at one pixel: latitude from
the forced constant or the per-pixel latitude image, the aspect folding
coefficient from the forced hemisphere or the latitude sign (225 north, 315
south), slope and folded aspect computed by ee.Terrain from the module-level
srtm image — not from the elevation argument x — and the McCune 2002 / 2007
exponential with corrected coefficients. -/
noncomputable def hli (E : Engine) (x : Pix → ℝ) (forceLatitude : Option ℝ)
    (forceHemisphere : Option Hemisphere) (p : Pix) : ℝ :=
  let latDeg : ℝ :=
    match forceLatitude with
    | some l => l
    | none => E.pixelLatitude p
  let lat : ℝ := deg2rad latDeg
  let foldCoeff : ℝ :=
    match forceHemisphere with
    | some .north => 225
    | some .south => 315
    | none => if lat < 0 then 315 else 225
  let slp : ℝ := deg2rad (E.slope (srtm E) p)
  let asp : ℝ := deg2rad |(-|E.aspect (srtm E) p - foldCoeff|) + 180|
  let x1 := Real.cos slp * Real.cos lat * 1.582
  let x2 := Real.sin slp * Real.sin lat * Real.cos asp * (-1.5)
  let x3 := Real.sin slp * Real.sin lat * (-0.262)
  let x4 := Real.sin slp * Real.sin asp * 0.607
  Real.exp (x1 + x2 + x3 + x4 + (-1.467))

/-! ## Theorems -/

/-! ## Theorems for TPI claims -/

/-- Claim C4: the tpi function rounds the elevation delta d by adding 0.5 and
truncating toward zero, so every non-negative d maps to floor(d + 0.5);
concretely d = 2.5 maps to 3, d = 2.4 maps to 2, and d = -2.5 maps to -2. -/
theorem C4_tpi_rounding :
    (∀ (dem : Pix → ℚ) (fm : (Pix → ℚ) → Pix → ℚ) (p : Pix),
      0 ≤ dem p - fm dem p → tpi dem fm p = ⌊dem p - fm dem p + 0.5⌋) ∧
    tpi (constImg 2.5) zeroFocal 0 = 3 ∧
    tpi (constImg 2.4) zeroFocal 0 = 2 ∧
    tpi (constImg (-2.5)) zeroFocal 0 = -2 := by
  refine ⟨fun dem fm p h => ?_, ?_, ?_, ?_⟩
  · unfold tpi eeToInt
    rw [if_pos (by linarith)]
  · norm_num [tpi, eeToInt, constImg, zeroFocal]
  · norm_num [tpi, eeToInt, constImg, zeroFocal]
  · norm_num [tpi, eeToInt, constImg, zeroFocal]
    rw [show ((-2 : ℚ)) = ((-2 : ℤ) : ℚ) by norm_num, Int.ceil_intCast]

/-- Witness for C4: the general rounding rule applied at the concrete
delta 3.2 (a constant raster against a zero focal mean). -/
theorem C4_tpi_rounding_witness :
    tpi (constImg 3.2) zeroFocal 0 =
      ⌊constImg 3.2 0 - zeroFocal (constImg 3.2) 0 + 0.5⌋ :=
  C4_tpi_rounding.1 (constImg 3.2) zeroFocal 0 (by norm_num [constImg, zeroFocal])

/-- Counterexample to claim C1 as stated: with sd = 1 and the default
flat_degrees = 5, the boundary pixel v = sd*0.5 = 0.5 with slope 6 > 5 is
assigned class 0 (unclassified), not class 2, and 0 is outside {1,...,6}. -/
theorem C1_slopePosition_counterexample :
    slopePosition 0.5 6 none 1 = 0 ∧
    slopePosition 0.5 6 none 1 ∉ ({1, 2, 3, 4, 5, 6} : Finset ℤ) := by
  have h : slopePosition 0.5 6 none 1 = 0 := by
    norm_num [slopePosition, slopePositionClass, eeWhereInt, resolveFlatDegrees]
  refine ⟨h, ?_⟩
  rw [h]
  decide

/-- Claim C1 (amended): for every sd > 0, flat_degrees threshold and pixel pair
(v, s), the slope-position where-chain assigns exactly one class, in
{0,1,2,3,4,5,6}; it assigns the out-of-range class 0 (unclassified) exactly on
the two boundaries v = sd*0.5 and v = -sd*0.5 when s > flat_degrees — so the
boundary pixel with v = sd*0.5 and s > flat_degrees is assigned 0, not 2 —
while v = sd*0.5 with s <= flat_degrees is assigned class 4 as claimed. -/
theorem C1_slopePosition_amended (sd flat v s : ℚ) (hsd : 0 < sd) :
    slopePositionClass sd flat v s ∈ ({0, 1, 2, 3, 4, 5, 6} : Finset ℤ) ∧
    (slopePositionClass sd flat v s = 0 ↔
      (v = sd * 0.5 ∨ v = sd * (-0.5)) ∧ flat < s) ∧
    (v = sd * 0.5 → s ≤ flat → slopePositionClass sd flat v s = 4) := by
  refine ⟨?_, ⟨?_, ?_⟩, ?_⟩
  · unfold slopePositionClass eeWhereInt
    split_ifs <;> decide
  · intro h0
    unfold slopePositionClass eeWhereInt at h0
    split_ifs at h0 with h6 h5 h4 h3 h2 h1
    any_goals omega
    have hv1 : v ≤ sd := le_of_not_lt h1
    have hv2 : v ≤ sd * 0.5 := by
      rcases not_and_or.mp h2 with h | h
      · exact le_of_not_lt h
      · exact absurd hv1 h
    have hv6 : sd * (-1) ≤ v := le_of_not_lt h6
    have hv5 : sd * (-0.5) ≤ v := by
      rcases not_and_or.mp h5 with h | h
      · exact absurd hv6 h
      · exact le_of_not_lt h
    have hflat : flat < s := by
      rcases not_and_or.mp h4 with h | h
      · exact absurd hv5 h
      · rcases not_and_or.mp h with h | h
        · exact absurd hv2 h
        · exact lt_of_not_le h
    refine ⟨?_, hflat⟩
    rcases not_and_or.mp h3 with h | h
    · exact Or.inr (le_antisymm (le_of_not_lt h) hv5)
    · rcases not_and_or.mp h with h | h
      · exact Or.inl (le_antisymm hv2 (le_of_not_lt h))
      · exact absurd hflat h
  · rintro ⟨hv | hv, hs⟩
    · subst hv
      unfold slopePositionClass eeWhereInt
      rw [if_neg (by rintro h; linarith),
        if_neg (by rintro ⟨h, h2⟩; linarith),
        if_neg (by rintro ⟨h, h2, h3⟩; linarith),
        if_neg (by rintro ⟨h, h2, h3⟩; linarith),
        if_neg (by rintro ⟨h, h2⟩; linarith),
        if_neg (by rintro h; linarith)]
    · subst hv
      unfold slopePositionClass eeWhereInt
      rw [if_neg (by rintro h; linarith),
        if_neg (by rintro ⟨h, h2⟩; linarith),
        if_neg (by rintro ⟨h, h2, h3⟩; linarith),
        if_neg (by rintro ⟨h, h2, h3⟩; linarith),
        if_neg (by rintro ⟨h, h2⟩; linarith),
        if_neg (by rintro h; linarith)]
  · intro hv hs
    subst hv
    unfold slopePositionClass eeWhereInt
    rw [if_neg (by rintro h; linarith),
      if_neg (by rintro ⟨h, h2⟩; linarith),
      if_pos ⟨by linarith, le_refl _, hs⟩]

/-- Witness for the amended C1: at sd = 2, flat_degrees = 5, the boundary pixel
v = sd*0.5 = 1 with gentle slope s = 3 is assigned class 4. -/
theorem C1_slopePosition_amended_witness : slopePositionClass 2 5 1 3 = 4 :=
  (C1_slopePosition_amended 2 5 1 3 (by norm_num)).2.2 (by norm_num) (by norm_num)

/-- Counterexample to claim C7 as stated: the caller-supplied falsy override
probabilityThreshold = 0 does not take effect in probabilityCloudMask; the
`x ? x : default` idiom silently falls back to the default 30 (and likewise
maxPixels = 0 falls back to 1e13 in vectorizeBoundary). -/
theorem C7_falsy_override_counterexample :
    probabilityCloudMaskThreshold (some (.num 0)) = JSVal.num 30 ∧
    probabilityCloudMaskThreshold (some (.num 0)) ≠ JSVal.num 0 ∧
    vectorizeBoundaryMaxPixels (some (.num 0)) = JSVal.num 10000000000000 := by
  refine ⟨?_, ?_, ?_⟩ <;> decide

/-- Claim C7 (amended): functions routing their optional-parameter object
through utils.updateParameters honor every caller-supplied key, including
explicit false/null/0 overrides; but functions resolving positional optional
arguments with the `x ? x : default` conditional (probabilityCloudMask's
probabilityThreshold, vectorizeBoundary's maxPixels) replace every falsy
override with the default instead. -/
theorem C7_parameter_defaults_amended :
    (∀ (d g : JSObj) (k : String) (v : JSVal),
      g k = some v → updateParameters d (some g) k = some v) ∧
    (∀ v : JSVal, truthy v = false →
      probabilityCloudMaskThreshold (some v) = JSVal.num 30 ∧
      vectorizeBoundaryMaxPixels (some v) = JSVal.num 10000000000000) := by
  constructor
  · intro d g k v h
    simp [updateParameters, h]
  · intro v h
    constructor <;> simp [probabilityCloudMaskThreshold, vectorizeBoundaryMaxPixels, h]

/-- Witness for the amended C7: the explicit override smooth = false is
honored by updateParameters even though false is falsy. -/
theorem C7_parameter_defaults_amended_witness :
    updateParameters emptyObj (some smoothFalseObj) ("smooth") =
      some (JSVal.boolean false) :=
  C7_parameter_defaults_amended.1 emptyObj smoothFalseObj ("smooth")
    (.boolean false) (by simp [smoothFalseObj])

/-- Claim C8: when the band-wise mean of the image over the dark object is
exactly zero in a band, darkObjectSubtraction leaves that band unchanged at
every pixel, so a zero-mean dark object makes it the identity transform. -/
theorem C8_darkObjectSubtraction_identity (img : Band → Pix → ℚ)
    (obj : List Pix) (b : Band) (p : Pix) (h : regionMean img obj b = 0) :
    darkObjectSubtraction img obj b p = img b p := by
  unfold darkObjectSubtraction
  rw [h, sub_zero]

/-- Witness for C8: on the concrete image with values 1 and -1 over the
dark-object pixels [0, 1], the subtraction is the identity at pixel 0. -/
theorem C8_darkObjectSubtraction_identity_witness :
    darkObjectSubtraction zeroMeanImg [0, 1] ("B") 0 = zeroMeanImg ("B") 0 :=
  C8_darkObjectSubtraction_identity zeroMeanImg [0, 1] ("B") 0
    (by norm_num [regionMean, zeroMeanImg])

/-- Claim C2: for every interval [t, t+delta) and every median reducer, the
exported periodFireBoundary flags each source exactly where the median of its
DQF values over the interval equals the best-quality code 0, and combines the
two binary masks with a logical OR (the max reducer): the pixel is in the
boundary iff either source detected it, and is masked otherwise. -/
theorem C2_periodFireBoundary_median_or (med : List ℚ → ℚ) (t delta : ℚ)
    (obs16 obs17 : List GoesObs) :
    periodFireBoundary med t delta obs16 obs17 =
      if (periodDqfVals t delta obs16 ≠ [] ∧
            med (periodDqfVals t delta obs16) = 0) ∨
          (periodDqfVals t delta obs17 ≠ [] ∧
            med (periodDqfVals t delta obs17) = 0)
      then some 1 else none := by
  unfold periodFireBoundary sourceFireMask eeSelfMask reduceMax2
  by_cases h16 : periodDqfVals t delta obs16 = [] <;>
    by_cases h17 : periodDqfVals t delta obs17 = [] <;>
    by_cases m16 : med (periodDqfVals t delta obs16) = 0 <;>
    by_cases m17 : med (periodDqfVals t delta obs17) = 0 <;>
    simp [h16, h17, m16, m17, List.isEmpty_iff]

lemma accumulateMask_concat (l : List Mask) (a next : Mask) :
    accumulateMask next (l ++ [a]) = (l ++ [a]) ++ [stepMask a next] := by
  simp [accumulateMask, List.getLastD_concat]

lemma foldl_accumulate : ∀ (ms l : List Mask) (a : Mask),
    ms.foldl (fun acc m => accumulateMask m acc) (l ++ [a]) =
      (l ++ [a]) ++ scanAux a ms
  | [], l, a => by simp [scanAux]
  | m :: ms, l, a => by
    rw [List.foldl_cons, accumulateMask_concat l a m,
      show (l ++ [a]) ++ [stepMask a m] = (l ++ [a]) ++ [stepMask a m] from rfl,
      foldl_accumulate ms (l ++ [a]) (stepMask a m)]
    simp [scanAux]

lemma cumulativeBoundaries_eq_scanAux (masks : List Mask) :
    cumulativeBoundaries masks = scanAux zeroMask masks := by
  unfold cumulativeBoundaries
  rw [show [zeroMask] = ([] : List Mask) ++ [zeroMask] by simp,
    foldl_accumulate masks [] zeroMask]
  simp

lemma scanl_cons_head (f : Mask → Mask → Mask) (b : Mask) (l : List Mask) :
    List.scanl f b l = b :: (List.scanl f b l).drop 1 := by
  cases l <;> simp [List.scanl]

lemma scanl_or_drop_one : ∀ (ms : List Mask) (a : Mask),
    (List.scanl orMask a ms).drop 1 = scanAux a ms
  | [], a => by simp [List.scanl, scanAux]
  | m :: ms, a => by
    rw [List.scanl_cons, List.singleton_append, List.drop_succ_cons,
      List.drop_zero, scanl_cons_head orMask (orMask a m) ms,
      scanl_or_drop_one ms (orMask a m)]
    rfl

lemma scanAux_length : ∀ (ms : List Mask) (a : Mask),
    (scanAux a ms).length = ms.length
  | [], _ => rfl
  | m :: ms, a => by simp [scanAux, scanAux_length ms (stepMask a m)]

lemma stepMask_somes (a m : Mask) (p : Pix) :
    stepMask a m p = some 1 ∨ stepMask a m p = none := by
  unfold stepMask
  split_ifs <;> simp

lemma stepMask_eq_one (a m : Mask) (p : Pix)
    (ha : (a p).getD 0 = 0 ∨ (a p).getD 0 = 1)
    (hm : m p = some 1 ∨ m p = none) :
    (stepMask a m p = some 1 ↔ (a p).getD 0 = 1 ∨ m p = some 1) := by
  unfold stepMask eeUnmask
  rcases ha with h | h <;> rcases hm with h2 | h2 <;>
    rw [h2] <;> simp [h]

lemma scanAux_getD_one : ∀ (ms : List Mask) (a : Mask) (k : Nat) (p : Pix),
    (∀ m, m ∈ ms → ∀ q, m q = some 1 ∨ m q = none) →
    (∀ q, (a q).getD 0 = 0 ∨ (a q).getD 0 = 1) →
    k < ms.length →
    ((scanAux a ms).getD k emptyMask p = some 1 ↔
      (a p).getD 0 = 1 ∨ ∃ i, i ≤ k ∧ (ms.getD i emptyMask) p = some 1)
  | [], _, k, _, _, _, hk => absurd hk (by simp)
  | m :: ms, a, 0, p, hms, ha, _ => by
    have hm : m p = some 1 ∨ m p = none := hms m (List.mem_cons_self m ms) p
    rw [show (scanAux a (m :: ms)).getD 0 emptyMask = stepMask a m from rfl]
    rw [stepMask_eq_one a m p (ha p) hm]
    constructor
    · rintro (h | h)
      · exact Or.inl h
      · exact Or.inr ⟨0, le_refl 0, h⟩
    · rintro (h | ⟨i, hi, h⟩)
      · exact Or.inl h
      · have : i = 0 := Nat.le_zero.mp hi
        subst this
        exact Or.inr h
  | m :: ms, a, k + 1, p, hms, ha, hk => by
    have hm : ∀ q, m q = some 1 ∨ m q = none :=
      hms m (List.mem_cons_self m ms)
    have hms2 : ∀ m2, m2 ∈ ms → ∀ q, m2 q = some 1 ∨ m2 q = none :=
      fun m2 h2 => hms m2 (List.mem_cons_of_mem m h2)
    have hb : ∀ q, (stepMask a m q).getD 0 = 0 ∨ (stepMask a m q).getD 0 = 1 := by
      intro q
      rcases stepMask_somes a m q with h | h <;> rw [h] <;> simp
    have hk2 : k < ms.length := by
      have := hk
      simp only [List.length_cons] at this
      omega
    rw [show (scanAux a (m :: ms)).getD (k + 1) emptyMask =
      (scanAux (stepMask a m) ms).getD k emptyMask from rfl]
    rw [scanAux_getD_one ms (stepMask a m) k p hms2 hb hk2]
    have hbp : ((stepMask a m p).getD 0 = 1 ↔ (a p).getD 0 = 1 ∨ m p = some 1) := by
      rw [show ((stepMask a m p).getD 0 = 1 ↔ stepMask a m p = some 1) from ?_]
      · exact stepMask_eq_one a m p (ha p) (hm p)
      · rcases stepMask_somes a m p with h | h <;> rw [h] <;> simp
    rw [hbp]
    constructor
    · rintro ((h | h) | ⟨i, hi, h⟩)
      · exact Or.inl h
      · exact Or.inr ⟨0, Nat.zero_le _, h⟩
      · exact Or.inr ⟨i + 1, by omega, h⟩
    · rintro (h | ⟨i, hi, h⟩)
      · exact Or.inl (Or.inl h)
      · cases i with
        | zero => exact Or.inl (Or.inr h)
        | succ j => exact Or.inr ⟨j, by omega, h⟩

lemma scanAux_all_empty : ∀ (n : Nat) (a : Mask),
    (∀ q, (a q).getD 0 = 0) →
    scanAux a (List.replicate n emptyMask) = List.replicate n emptyMask
  | 0, _, _ => rfl
  | n + 1, a, ha => by
    rw [List.replicate_succ]
    show stepMask a emptyMask :: scanAux (stepMask a emptyMask)
      (List.replicate n emptyMask) = _
    have h : stepMask a emptyMask = emptyMask := by
      funext q
      simp [stepMask, eeUnmask, emptyMask, ha q]
    rw [h, scanAux_all_empty n emptyMask (by intro q; simp [emptyMask])]

/-- Claim C3: with cumulative = true, periodicFireBoundaries folds
accumulateMask over the ordered per-interval masks from the all-zero seed and
discards the seed, so for every sequence of N binary interval masks the
output has exactly N masks, equals the spec's running-OR scan, and its k-th
mask holds a 1 exactly where some mask among the first k detected the pixel
(hence the final mask is the OR of all N); an all-empty input of length N
yields N all-masked rasters. -/
theorem C3_cumulative_accumulation (masks : List Mask)
    (hbin : ∀ m, m ∈ masks → ∀ p, m p = some 1 ∨ m p = none) :
    (cumulativeBoundaries masks).length = masks.length ∧
    cumulativeBoundaries masks = specCumulative masks ∧
    (∀ k, k < masks.length → ∀ p,
      ((cumulativeBoundaries masks).getD k emptyMask p = some 1 ↔
        ∃ i, i ≤ k ∧ (masks.getD i emptyMask) p = some 1)) ∧
    (∀ n, cumulativeBoundaries (List.replicate n emptyMask) =
      List.replicate n emptyMask) := by
  refine ⟨?_, ?_, ?_, ?_⟩
  · rw [cumulativeBoundaries_eq_scanAux, scanAux_length]
  · rw [cumulativeBoundaries_eq_scanAux]
    unfold specCumulative
    rw [scanl_or_drop_one]
  · intro k hk p
    rw [cumulativeBoundaries_eq_scanAux,
      scanAux_getD_one masks zeroMask k p hbin (by intro q; simp [zeroMask]) hk]
    simp [zeroMask]
  · intro n
    rw [cumulativeBoundaries_eq_scanAux,
      scanAux_all_empty n zeroMask (by intro q; simp [zeroMask])]

/-- Witness for C3: on the concrete two-interval input [oneAtZero, emptyMask]
the cumulative fold equals the spec's running OR. -/
theorem C3_cumulative_accumulation_witness :
    cumulativeBoundaries [oneAtZero, emptyMask] =
      specCumulative [oneAtZero, emptyMask] := by
  refine (C3_cumulative_accumulation [oneAtZero, emptyMask] ?_).2.1
  intro m hm p
  rcases List.mem_cons.mp hm with rfl | hm2
  · unfold oneAtZero
    split_ifs <;> simp
  · rcases List.mem_singleton.mp hm2 with rfl
    exact Or.inr rfl

/-- Claim C5: where calculateBurnSeverity's arithmetic leaves its numeric
domain, the result is an invalid pixel value that propagates band-wise (never
the value zero — and the model is a total function, so never an exception):
with NIR = SWIR in both inputs, preNBR = postNBR = dNBR = 0 and RdNBR is the
invalid 0/0, propagating into percentMortality; and a negative radicand
RdNBR*1135360 - 119487011 makes percentMortality invalid. -/
theorem C5_burn_severity_invalid :
    (∀ v w : ℝ, v ≠ 0 → w ≠ 0 →
      (calculateBurnSeverity (some v) (some v) (some w) (some w)).preNBR = some 0 ∧
      (calculateBurnSeverity (some v) (some v) (some w) (some w)).postNBR = some 0 ∧
      (calculateBurnSeverity (some v) (some v) (some w) (some w)).dNBR = some 0 ∧
      (calculateBurnSeverity (some v) (some v) (some w) (some w)).RdNBR = none ∧
      (calculateBurnSeverity (some v) (some v) (some w) (some w)).RdNBR ≠ some 0 ∧
      (calculateBurnSeverity (some v) (some v) (some w) (some w)).percentMortality = none) ∧
    (∀ r : ℝ, r * 1135360 + (-119487011) < 0 → basalMortality (some r) = none) := by
  constructor
  · intro v w hv hw
    have h2 : v + v ≠ 0 := fun h => hv (by linarith)
    have hw2 : w + w ≠ 0 := fun h => hw (by linarith)
    simp [calculateBurnSeverity, normalizedDiff, basalMortality,
      eeAdd, eeSub, eeMul, eeDiv, eeAbs, eeSqrt, h2, hw2, Real.sqrt_zero]
  · intro r h
    simp [basalMortality, eeAdd, eeMul, eeSqrt, h]

/-- Witness for C5: the degenerate pixel NIR = SWIR = 1 pre-fire and
NIR = SWIR = 2 post-fire has an invalid RdNBR, and RdNBR = 0 puts the
mortality radicand below zero, giving invalid mortality. -/
theorem C5_burn_severity_invalid_witness :
    (calculateBurnSeverity (some 1) (some 1) (some 2) (some 2)).RdNBR = none ∧
    basalMortality (some 0) = none :=
  ⟨(C5_burn_severity_invalid.1 1 2 (by norm_num) (by norm_num)).2.2.2.1,
    C5_burn_severity_invalid.2 0 (by norm_num)⟩

/-- Claim C10: the refugia band starts from the constant 1 and is set to 0
only where percentMortality.gt(0.1) holds; at every pixel where the mortality
is invalid/masked the condition does not hold and refugia stays 1. -/
theorem C10_refugia_invalid_mortality (a b c d : EEVal)
    (h : (calculateBurnSeverity a b c d).percentMortality = none) :
    (calculateBurnSeverity a b c d).refugia = some 1 := by
  have hr : (calculateBurnSeverity a b c d).refugia =
      eeWhereR (some 1)
        (eeGtBool ((calculateBurnSeverity a b c d).percentMortality) 0.1) 0 := rfl
  rw [hr, h]
  simp [eeGtBool, eeWhereR]

/-- Witness for C10: the fully degenerate pixel (all bands 1) has invalid
mortality, and its refugia band is 1. -/
theorem C10_refugia_invalid_mortality_witness :
    (calculateBurnSeverity (some 1) (some 1) (some 1) (some 1)).refugia = some 1 :=
  C10_refugia_invalid_mortality (some 1) (some 1) (some 1) (some 1) (by
    simp [calculateBurnSeverity, normalizedDiff, basalMortality,
      eeAdd, eeSub, eeMul, eeDiv, eeAbs, eeSqrt, Real.sqrt_zero])

/-- Counterexample to claim C6 as stated: at the finite inputs q = 0, p = 0,
t = -243.5 the saturation-pressure exponent divides by zero, so the ratio and
hence the clamped output are invalid — not a value in [0, 100]. -/
theorem C6_relativeHumidity_counterexample :
    relativeHumidity 0 0 (-243.5) = none := by
  have hraw : relativeHumidityRaw 0 0 (-243.5) = none := by
    have h0 : (-243.5 : ℝ) + 243.5 = 0 := by norm_num
    simp [relativeHumidityRaw, eeAdd, eeMul, eeDiv, eeExp, h0]
  simp [relativeHumidity, hraw, eeLtBool, eeGtBool, eeWhereR]

/-- Claim C6 (amended): for every finite q, p, t whose intermediate Bolton
divisions are defined (t + 243.5 and 0.378*q + 0.622 nonzero — the
counterexample inputs excluded), relativeHumidity returns a valid value in the
closed interval [0, 100], even when the raw ratio lies outside that range. -/
theorem C6_relativeHumidity_amended (q p t : ℝ)
    (ht : t + 243.5 ≠ 0) (hq : q * 0.378 + 0.622 ≠ 0) :
    ∃ r, relativeHumidity q p t = some r ∧ 0 ≤ r ∧ r ≤ 100 := by
  have hes : Real.exp (t * 17.67 / (t + 243.5)) * 6.112 ≠ 0 := by positivity
  have hraw : relativeHumidityRaw q p t =
      some (q * p / (q * 0.378 + 0.622) /
        (Real.exp (t * 17.67 / (t + 243.5)) * 6.112)) := by
    simp [relativeHumidityRaw, eeAdd, eeMul, eeDiv, eeExp, ht, hq, hes]
  set rh := q * p / (q * 0.378 + 0.622) /
    (Real.exp (t * 17.67 / (t + 243.5)) * 6.112) with hdef
  by_cases hneg : rh < 0
  · refine ⟨0, ?_, le_refl 0, by norm_num⟩
    have hng : ¬(100 < rh) := by linarith
    simp [relativeHumidity, hraw, eeLtBool, eeGtBool, eeWhereR, hneg, hng]
  · by_cases hbig : 100 < rh
    · refine ⟨100, ?_, by norm_num, le_refl 100⟩
      simp [relativeHumidity, hraw, eeLtBool, eeGtBool, eeWhereR, hneg, hbig]
    · refine ⟨rh, ?_, le_of_not_lt hneg, le_of_not_lt hbig⟩
      simp [relativeHumidity, hraw, eeLtBool, eeGtBool, eeWhereR, hneg, hbig]

/-- Witness for the amended C6: at q = p = t = 0 both division hypotheses hold
and the output is a valid value (in [0, 100]). -/
theorem C6_relativeHumidity_amended_witness :
    relativeHumidity 0 0 0 ≠ none := by
  rcases C6_relativeHumidity_amended 0 0 0 (by norm_num) (by norm_num) with
    ⟨r, hr, h0, h100⟩
  rw [hr]
  simp

/-- Claim C9: hli computes its slope and aspect terms from the module-level
srtm image, not from its elevation argument x, so for any two elevation
images and identical forceLatitude / forceHemisphere arguments the outputs
are the same image: the result does not depend on x. -/
theorem C9_hli_ignores_elevation_argument (E : Engine) (xa xb : Pix → ℝ)
    (fl : Option ℝ) (fh : Option Hemisphere) (p : Pix) :
    hli E xa fl fh p = hli E xb fl fh p := rfl

end GeeTools
